import Mathlib

/-!
Verification development for the MS_SQL_MCP_Server repository.

Shallow embedding of the query-safety validator (src/sqlmcp/utils/security.py),
the row-limit injection step of execute_select (src/sqlmcp/tools/query.py),
and the usage-digest subsystem (src/sqlmcp/tools/usage_digest.py).

Strings are modelled as `List Char`; Python regular-expression classes are
modelled over ASCII (`\w` = ASCII letter, digit or underscore; `\s` = the six
ASCII whitespace characters), which matches the Python semantics on the ASCII
inputs the claims concern.  Timestamps are modelled as integers counting
seconds; dictionaries are modelled extensionally as `String → Option _` maps.
-/

/-- Word character: model of the Python regex class backslash-w on ASCII. -/
def isWordChar (c : Char) : Bool := c.isAlpha || c.isDigit || c = '_'

/-- Whitespace character: model of the Python regex class backslash-s on ASCII
(space, tab, newline, carriage return, vertical tab, form feed). -/
def isSpaceChar (c : Char) : Bool :=
  c = ' ' || c = '\t' || c = '\n' || c = '\r' || c = Char.ofNat 11 || c = Char.ofNat 12

/-- Test whether `pat` is a leading segment of `s` (character-exact). -/
def leadMatch : List Char → List Char → Bool
  | [], _ => true
  | _ :: _, [] => false
  | p :: ps, c :: cs => (p == c) && leadMatch ps cs

/-- Test whether `pat` occurs as a contiguous segment anywhere in `s`. -/
def hasSubstr (pat : List Char) : List Char → Bool
  | [] => leadMatch pat []
  | c :: t => leadMatch pat (c :: t) || hasSubstr pat t

/-- Match `kw` case-insensitively against the front of `s`, returning the
remainder of `s` on success (model of a case-insensitive literal regex). -/
def matchCI : List Char → List Char → Option (List Char)
  | [], s => some s
  | _ :: _, [] => none
  | k :: ks, c :: cs => if c.toLower == k.toLower then matchCI ks cs else none

/-- Word boundary to the right: the next character, if any, is not a word
character. -/
def noWordAhead : List Char → Bool
  | [] => true
  | c :: _ => !isWordChar c

/-- Word boundary to the left of the current position, given the previous
character (`none` at the start of the string). -/
def boundaryBefore : Option Char → Bool
  | none => true
  | some c => !isWordChar c

/-- One prohibited pattern of security.py's PROHIBITED_KEYWORDS list:
a whole word, a stored-procedure prefix followed by at least one word
character, or two words separated by whitespace. -/
inductive ProPat where
  | word (kw : List Char)
  | procPre (pre : List Char)
  | two (a b : List Char)

/-- Does pattern `p` match starting exactly at the head of `s`?  (The word
boundary on the left is checked by the caller.) -/
def patAt (p : ProPat) (s : List Char) : Bool :=
  match p with
  | .word kw =>
    match matchCI kw s with
    | some rest => noWordAhead rest
    | none => false
  | .procPre pre =>
    match matchCI pre s with
    | some (c :: _) => isWordChar c
    | some [] => false
    | none => false
  | .two a b =>
    match matchCI a s with
    | some (c :: t) =>
      if isSpaceChar c then
        match matchCI b (t.dropWhile isSpaceChar) with
        | some rest => noWordAhead rest
        | none => false
      else false
    | some [] => false
    | none => false

/-- Scan `s` for a position where `p` matches with a word boundary on the
left; `prev` is the character before the current position. -/
def patSearch (p : ProPat) : Option Char → List Char → Bool
  | _, [] => false
  | prev, c :: t => (boundaryBefore prev && patAt p (c :: t)) || patSearch p (some c) t

def insertW : List Char := "INSERT".toList
def updateW : List Char := "UPDATE".toList
def deleteW : List Char := "DELETE".toList
def dropW : List Char := "DROP".toList
def alterW : List Char := "ALTER".toList
def createW : List Char := "CREATE".toList
def truncateW : List Char := "TRUNCATE".toList
def execW : List Char := "EXEC".toList
def executeW : List Char := "EXECUTE".toList
def spPreW : List Char := "sp_".toList
def xpPreW : List Char := "xp_".toList
def intoW : List Char := "INTO".toList
def outfileW : List Char := "OUTFILE".toList
def dumpfileW : List Char := "DUMPFILE".toList
def selectW : List Char := "select".toList

/-- security.py PROHIBITED_KEYWORDS: the thirteen case-insensitive patterns. -/
def PROHIBITED_KEYWORDS : List ProPat :=
  [ .word insertW, .word updateW, .word deleteW, .word dropW, .word alterW,
    .word createW, .word truncateW, .word execW, .word executeW,
    .procPre spPreW, .procPre xpPreW,
    .two intoW outfileW, .two intoW dumpfileW ]

/-- security.py: does any prohibited pattern match anywhere in the query? -/
def anyProhibited (q : List Char) : Bool :=
  PROHIBITED_KEYWORDS.any (fun p => patSearch p none q)

/-- security.py: the anchored check of the regex caret-backslash-s-star-SELECT
with a word boundary, case-insensitive, used by re.match. -/
def startsSelect (q : List Char) : Bool :=
  match matchCI selectW (q.dropWhile isSpaceChar) with
  | some rest => noWordAhead rest
  | none => false

/-- security.py: the multi-statement check — a semicolon followed by optional
whitespace and then a word character, anywhere in the string. -/
def semiWordScan : List Char → Bool
  | [] => false
  | c :: t =>
    ((c == ';') && (match t.dropWhile isSpaceChar with
                    | [] => false
                    | d :: _ => isWordChar d)) || semiWordScan t

/-- security.py: the trailing line-comment check — two dashes followed by
nothing but whitespace up to the end of the string (the regex has no
MULTILINE flag, so the dollar anchor only matches at the end of the input). -/
def dashTrailScan : List Char → Bool
  | [] => false
  | c :: t =>
    ((c == '-') && (match t with
                    | d :: r => (d == '-') && r.all isSpaceChar
                    | [] => false)) || dashTrailScan t

def slashStarW : List Char := "/*".toList
def starSlashW : List Char := "*/".toList

/-- security.py: the comment-indicator check. -/
def hasCommentMarks (q : List Char) : Bool :=
  dashTrailScan q || hasSubstr slashStarW q || hasSubstr starSlashW q

/-- security.py is_safe_query: reject unless the query is a SELECT, contains
no prohibited keyword, no stacked statement and no comment indicator. -/
def is_safe_query (q : List Char) : Bool :=
  if startsSelect q = false then false
  else if anyProhibited q = true then false
  else if semiWordScan q = true then false
  else if hasCommentMarks q = true then false
  else true

/-- query.py execute_select, line 60: lowercase substring test deciding
whether the row-limit rewrite is skipped ("top" not in query.lower()). -/
def topSubstr (q : List Char) : Bool :=
  hasSubstr ('t' :: 'o' :: 'p' :: []) (q.map Char.toLower)

/-- query.py execute_select, lines 61-62: the end position of the anchored
match of caret-backslash-s-star-SELECT-backslash-s-plus (case-insensitive,
greedy), or `none` when the query does not match. -/
def selectHeadLen (q : List Char) : Option Nat :=
  let ws := q.takeWhile isSpaceChar
  match matchCI selectW (q.drop ws.length) with
  | some r2 =>
    let sp := r2.takeWhile isSpaceChar
    if sp.length = 0 then none else some (ws.length + 6 + sp.length)
  | none => none

/-- query.py execute_select, line 63: the inserted text, the f-string
TOP-space-limit-space. -/
def topClause (limit : Nat) : List Char :=
  'T' :: 'O' :: 'P' :: ' ' :: ((Nat.repr limit).toList ++ [' '])

/-- query.py execute_select, lines 60-63: the row-limit injection step.  If
the limit is positive and the lowercased query does not contain the substring
"top", insert a TOP-limit clause at the end of the leading SELECT-and-spaces
match; otherwise leave the query unchanged. -/
def inject_top_clause (q : List Char) (limit : Nat) : List Char :=
  if 0 < limit ∧ topSubstr q = false then
    match selectHeadLen q with
    | some n => q.take n ++ topClause limit ++ q.drop n
    | none => q
  else q

/-- Modelled from the spec: the premise of the spec sentence "only if the
query does not already contain an equivalent limiting clause (top-N, LIMIT,
or FETCH FIRST)" — an uppercase-insensitive containment test for any of the
three limiting clauses. -/
def specHasLimiting (q : List Char) : Bool :=
  hasSubstr ("TOP".toList) (q.map Char.toUpper) ||
  hasSubstr ("LIMIT".toList) (q.map Char.toUpper) ||
  hasSubstr ("FETCH FIRST".toList) (q.map Char.toUpper)

/-- Usage record for one table, field or join key of the usage digest
(usage_digest.py).  `queryCount`, `firstSeen` and `lastSeen` mirror the
query_count / first_seen / last_seen entries; the remaining descriptive
entries of the Python dict (schema, name, row_count, ...) are collected
opaquely in `attrs`.  Timestamps are seconds as integers. -/
structure UsageRec where
  queryCount : Nat
  firstSeen : Int
  lastSeen : Int
  attrs : List (String × String)
deriving DecidableEq

/-- The persisted usage digest (usage_digest.py): last_updated timestamp,
cumulative usage_count, and the three key-indexed maps, modelled
extensionally. -/
structure Digest where
  lastUpdated : Int
  usageCount : Nat
  tables : String → Option UsageRec
  fields : String → Option UsageRec
  joins : String → Option UsageRec

/-- usage_digest.py _merge_digests, per-record merge for a key present in
both digests: start from a copy of the new record, add the old query_count,
and keep the old first_seen when it is strictly earlier.  last_seen and all
descriptive attributes stay those of the new record. -/
def mergeRecords (old new : UsageRec) : UsageRec :=
  { new with
    queryCount := new.queryCount + old.queryCount
    firstSeen := if old.firstSeen < new.firstSeen then old.firstSeen else new.firstSeen }

/-- usage_digest.py _merge_digests, one of the three map merges: keys present
in both sides are combined with `mergeRecords`, keys present on one side pass
through unchanged. -/
def mergeMap (old new : String → Option UsageRec) : String → Option UsageRec :=
  fun k =>
    match old k, new k with
    | some o, some n => some (mergeRecords o n)
    | some o, none => some o
    | none, some n => some n
    | none, none => none

/-- usage_digest.py _merge_digests: last_updated is the new digest's,
usage_count is the sum, the three maps are merged keywise. -/
def _merge_digests (old new : Digest) : Digest :=
  { lastUpdated := new.lastUpdated
    usageCount := old.usageCount + new.usageCount
    tables := mergeMap old.tables new.tables
    fields := mergeMap old.fields new.fields
    joins := mergeMap old.joins new.joins }

/-- The empty digest created by usage_digest.py _load_usage_digest when no
file exists or when reading fails, stamped with the current time. -/
def emptyDigest (now : Int) : Digest :=
  { lastUpdated := now
    usageCount := 0
    tables := fun _ => none
    fields := fun _ => none
    joins := fun _ => none }

/-- State of the persisted digest document: absent, present but unreadable
or unparsable, or present and valid. -/
inductive FileState where
  | missing
  | corrupt
  | valid (d : Digest)

/-- usage_digest.py _load_usage_digest: when no file exists, create, persist
and return an empty digest stamped `now`; when the file cannot be read or
parsed, swallow the exception and return an empty digest stamped `now`
(leaving the file as it was); otherwise return the parsed digest.  The
function is total: no outcome propagates an exception. -/
def _load_usage_digest (fs : FileState) (now : Int) : Digest × FileState :=
  match fs with
  | .missing => (emptyDigest now, .valid (emptyDigest now))
  | .corrupt => (emptyDigest now, .corrupt)
  | .valid d => (d, .valid d)

/-- usage_digest.py _save_usage_digest: stamp last_updated with the current
time and persist. -/
def _save_usage_digest (d : Digest) (now : Int) : Digest :=
  { d with lastUpdated := now }

/-- Result status of update_usage_digest: the skipped result carries the
current last_updated, the success result the refresh time. -/
inductive UpdateStatus where
  | skipped (lastUpdated : Int)
  | success (lastUpdated : Int)
deriving DecidableEq

/-- usage_digest.py update_usage_digest, lines 200-211 and the merge/save
tail: with the freshly extracted digest supplied by the external query-history
collaborator as `newDigest`, skip (leaving the persisted digest untouched)
unless force_refresh is set or at least 86400 seconds have elapsed since the
persisted last_updated; otherwise merge, save and report success.  Returns
the status together with the resulting persisted digest. -/
def update_usage_digest (current newDigest : Digest) (now : Int)
    (forceRefresh : Bool) : UpdateStatus × Digest :=
  if forceRefresh = false ∧ now - current.lastUpdated < 86400 then
    (UpdateStatus.skipped current.lastUpdated, current)
  else
    (UpdateStatus.success now, _save_usage_digest (_merge_digests current newDigest) now)

/-- Python str.split() with no argument: split on runs of whitespace,
discarding empty pieces.  `cur` accumulates the current word reversed. -/
def pySplitGo : List Char → List Char → List (List Char)
  | [], cur => if cur = [] then [] else [cur.reverse]
  | c :: t, cur =>
    if isSpaceChar c then
      if cur = [] then pySplitGo t [] else cur.reverse :: pySplitGo t []
    else pySplitGo t (c :: cur)

/-- Python str.split() with no argument. -/
def pySplit (s : List Char) : List (List Char) := pySplitGo s []

/-- Python str.split of a newline separator: split at each newline, keeping
empty pieces. -/
def splitNlGo : List Char → List Char → List (List Char)
  | [], cur => [cur.reverse]
  | c :: t, cur =>
    if c = '\n' then cur.reverse :: splitNlGo t [] else splitNlGo t (c :: cur)

/-- Python str.split of a newline separator. -/
def splitNl (s : List Char) : List (List Char) := splitNlGo s []

/-- The punctuation set of the Python strip argument: brackets, parentheses,
braces, comma and semicolon. -/
def stripPunct : List Char :=
  ['[', ']', '(', ')', Char.ofNat 123, Char.ofNat 125, ',', ';']

/-- Python str.strip with the punctuation set: remove those characters from
both ends. -/
def pyStripPunct (s : List Char) : List Char :=
  ((s.dropWhile (stripPunct.contains ·)).reverse.dropWhile (stripPunct.contains ·)).reverse

/-- Python str.strip() with no argument: remove whitespace from both ends. -/
def pyStripWs (s : List Char) : List Char :=
  ((s.dropWhile isSpaceChar).reverse.dropWhile isSpaceChar).reverse

/-- Python upper() on the modelled ASCII strings. -/
def upperL (s : List Char) : List Char := s.map Char.toUpper

/-- Python replace of an opening then a closing square bracket by the empty
string: remove every square bracket. -/
def removeBrackets (s : List Char) : List Char :=
  (s.filter (· ≠ '[')).filter (· ≠ ']')

/-- Python set.add modelled on an insertion-ordered duplicate-free list. -/
def addSet (acc : List (List Char)) (x : List Char) : List (List Char) :=
  if x ∈ acc then acc else acc ++ [x]

/-- The part of `s` after the first occurrence of `sep` (Python
split(sep, 1) index 1); empty when `sep` does not occur. -/
def afterFirst (sep : List Char) : List Char → List Char
  | [] => []
  | c :: t => if leadMatch sep (c :: t) then (c :: t).drop sep.length else afterFirst sep t

/-- The part of `s` before the first occurrence of `sep` (Python
split(sep) index 0); the whole of `s` when `sep` does not occur. -/
def beforeFirst (sep : List Char) : List Char → List Char
  | [] => []
  | c :: t => if leadMatch sep (c :: t) then [] else c :: beforeFirst sep t

def fromW : List Char := "FROM".toList
def joinW : List Char := "JOIN".toList
def intoUW : List Char := "INTO".toList
def updateUW : List Char := "UPDATE".toList
def onW : List Char := "ON".toList
def andW : List Char := "AND".toList

/-- usage_digest.py _extract_tables_from_query: the four keywords whose next
token is read as a table reference. -/
def tableKeywords : List (List Char) := [fromW, joinW, intoUW, updateUW]

/-- usage_digest.py _extract_tables_from_query: reserved words that the next
token must not equal (after uppercasing). -/
def reservedAfter : List (List Char) :=
  ["SELECT".toList, "WITH".toList, "AS".toList, "ON".toList]

/-- usage_digest.py _extract_tables_from_query, loop over adjacent token
pairs: when a keyword token is followed by a token that strips to a nonempty
non-reserved word, add it (brackets removed) to the set. -/
def tablesGo : List (List Char) → List (List Char) → List (List Char)
  | p :: q :: rest, acc =>
    if p ∈ tableKeywords then
      let tr := pyStripPunct q
      if tr ≠ [] ∧ upperL tr ∉ reservedAfter then
        tablesGo (q :: rest) (addSet acc (removeBrackets tr))
      else tablesGo (q :: rest) acc
    else tablesGo (q :: rest) acc
  | _, acc => acc

/-- usage_digest.py _extract_tables_from_query: whitespace-split the query
text and collect the set of table references, in first-seen order. -/
def _extract_tables_from_query (q : List Char) : List (List Char) :=
  tablesGo (pySplit q) []

/-- usage_digest.py join-extraction loop state: accumulated join tuples, the
set of tables seen so far (insertion-ordered), and the flag recording that a
FROM line was already handled. -/
structure JoinState where
  joins : List (List Char × List Char × Option (List Char))
  curTables : List (List Char)
  fromEnc : Bool

/-- usage_digest.py _extract_joins_from_query: the six join keyword variants,
in the order the code tries them. -/
def joinTypesList : List (List Char) :=
  ["JOIN".toList, "INNER JOIN".toList, "LEFT JOIN".toList,
   "RIGHT JOIN".toList, "FULL JOIN".toList, "CROSS JOIN".toList]

/-- usage_digest.py _extract_joins_from_query, first-FROM handling: on the
first line containing FROM, record the token after FROM (stripped, brackets
removed) as a seen table and set the flag. -/
def fromStep (st : JoinState) (line : List Char) : JoinState :=
  if hasSubstr fromW line = true ∧ st.fromEnc = false then
    match pySplit (pyStripWs (afterFirst fromW line)) with
    | [] => { st with fromEnc := true }
    | p :: _ =>
      let table := pyStripPunct p
      if table = [] then { st with fromEnc := true }
      else { st with fromEnc := true, curTables := addSet st.curTables (removeBrackets table) }
  else st

/-- usage_digest.py _extract_joins_from_query, one join-keyword attempt on a
line: when the keyword occurs, read the joined table from the token after its
first occurrence, read the join condition as the text after the first ON up
to the first AND provided it contains an equals sign, append one join tuple
per previously seen table, and add the joined table to the seen set. -/
def joinStep (line : List Char) (st : JoinState) (jt : List Char) : JoinState :=
  if hasSubstr jt line = true then
    match pySplit (pyStripWs (afterFirst jt line)) with
    | [] => st
    | p :: _ =>
      let joined := removeBrackets (pyStripPunct p)
      let jf : Option (List Char) :=
        if hasSubstr onW line = true then
          let onClause := pyStripWs (afterFirst onW line)
          if onClause.contains '=' then some (pyStripWs (beforeFirst andW onClause)) else none
        else none
      { joins := st.joins ++ st.curTables.map (fun t => (t, joined, jf))
        curTables := addSet st.curTables joined
        fromEnc := st.fromEnc }
  else st

/-- usage_digest.py _extract_joins_from_query, per-line processing: strip and
uppercase the line, handle the first FROM, then try each join keyword. -/
def processLine (st : JoinState) (rawLine : List Char) : JoinState :=
  let line := upperL (pyStripWs rawLine)
  joinTypesList.foldl (joinStep line) (fromStep st line)

/-- usage_digest.py _extract_joins_from_query: walk the query text line by
line and collect join tuples (seen table, joined table, condition or none). -/
def _extract_joins_from_query (q : List Char) :
    List (List Char × List Char × Option (List Char)) :=
  ((splitNl q).foldl processLine ⟨[], [], false⟩).joins

/-- Modelled from the spec: the premise of claim C1, a semicolon followed
after optional whitespace by any further non-whitespace content. -/
def specSemiNonWs : List Char → Bool
  | [] => false
  | c :: t => ((c == ';') && !(t.dropWhile isSpaceChar).isEmpty) || specSemiNonWs t

/-- Modelled from the spec: the premise of claim C2's line-comment half, two
dashes followed by nothing but (non-newline) whitespace up to the end of
their line. -/
def eolOnlyWs (r : List Char) : Bool :=
  match r.dropWhile (fun c => isSpaceChar c && !(c == '\n')) with
  | [] => true
  | c :: _ => c == '\n'

/-- Modelled from the spec: a line-comment marker at the end of any line. -/
def specDashEol : List Char → Bool
  | [] => false
  | c :: t =>
    ((c == '-') && (match t with
                    | d :: r => (d == '-') && eolOnlyWs r
                    | [] => false)) || specDashEol t

/-- String whose every semicolon is trailing: each semicolon is followed by
nothing but whitespace up to the end of the string. -/
def semisTrailingOnly : List Char → Bool
  | [] => true
  | c :: t => (!(c == ';') || t.all isSpaceChar) && semisTrailingOnly t

theorem all_space_dropWhile (t : List Char) (h : t.all isSpaceChar = true) :
    t.dropWhile isSpaceChar = [] := by
  induction t with
  | nil => rfl
  | cons c r ih =>
    rw [List.all_cons, Bool.and_eq_true] at h
    rw [List.dropWhile_cons, if_pos h.1]
    exact ih h.2

theorem semiWordScan_of_trailing : ∀ q, semisTrailingOnly q = true → semiWordScan q = false
  | [], _ => rfl
  | c :: t, h => by
    unfold semisTrailingOnly at h
    rw [Bool.and_eq_true] at h
    have ih := semiWordScan_of_trailing t h.2
    unfold semiWordScan
    rw [Bool.or_eq_false_iff]
    refine ⟨?_, ih⟩
    by_cases hc : c = ';'
    · subst hc
      have hall : t.all isSpaceChar = true := by simpa using h.1
      rw [all_space_dropWhile t hall]
      simp
    · have : (c == ';') = false := by simp [hc]
      rw [this, Bool.false_and]

theorem hasSubstr_here (pat s : List Char) (h : leadMatch pat s = true) :
    hasSubstr pat s = true := by
  cases s with
  | nil => simpa [hasSubstr] using h
  | cons c t => simp [hasSubstr, h]

theorem hasSubstr_append_right (pat a b : List Char) (h : hasSubstr pat b = true) :
    hasSubstr pat (a ++ b) = true := by
  induction a with
  | nil => simpa using h
  | cons c t ih => simp [hasSubstr, ih]

theorem topSubstr_insert (a b : List Char) (limit : Nat) :
    topSubstr (a ++ (topClause limit ++ b)) = true := by
  unfold topSubstr
  rw [List.map_append]
  apply hasSubstr_append_right
  apply hasSubstr_here
  rfl

theorem inject_skip (q : List Char) (limit : Nat) (h : topSubstr q = true) :
    inject_top_clause q limit = q := by
  unfold inject_top_clause
  simp [h]

theorem inject_stable (q : List Char) (limit : Nat)
    (h : ¬(0 < limit ∧ topSubstr q = false)) : inject_top_clause q limit = q := by
  unfold inject_top_clause
  rw [if_neg h]

theorem inject_rewrite (q : List Char) (limit : Nat) (n : Nat)
    (h1 : 0 < limit) (h2 : topSubstr q = false) (h3 : selectHeadLen q = some n) :
    inject_top_clause q limit = q.take n ++ topClause limit ++ q.drop n := by
  unfold inject_top_clause
  rw [if_pos ⟨h1, h2⟩, h3]

theorem inject_idem (q : List Char) (limit : Nat) :
    inject_top_clause (inject_top_clause q limit) limit = inject_top_clause q limit := by
  by_cases hc : 0 < limit ∧ topSubstr q = false
  · rcases h2 : selectHeadLen q with _ | n
    · have he : inject_top_clause q limit = q := by
        unfold inject_top_clause
        rw [if_pos hc, h2]
      rw [he]
      exact he
    · have he := inject_rewrite q limit n hc.1 hc.2 h2
      rw [he]
      apply inject_skip
      rw [List.append_assoc]
      exact topSubstr_insert _ _ _
  · have he := inject_stable q limit hc
    rw [he]
    exact he

def c1bad : List Char := "SELECT a FROM t;(".toList
def c1ex : List Char := "SELECT a FROM t; x".toList

/-- Claim C1, counterexample: in is_safe_query the stacked-statement regex
only fires on a word character after the semicolon, so a semicolon followed
by non-word non-whitespace content (here an opening parenthesis) is accepted,
contradicting the claim that any non-whitespace content after a semicolon is
rejected. -/
theorem c1_counterexample : specSemiNonWs c1bad = true ∧ is_safe_query c1bad = true := by
  exact ⟨by decide, by decide⟩

/-- Claim C1 as amended: for every input in which a semicolon is followed,
after optional whitespace, by a word character (ASCII letter, digit or
underscore), is_safe_query returns false; and a string whose every semicolon
is trailing (nothing but whitespace after it) is never rejected by the
stacked-statement rule. -/
theorem c1_semicolon_amended (q : List Char) :
    (semiWordScan q = true → is_safe_query q = false) ∧
    (semisTrailingOnly q = true → semiWordScan q = false) := by
  refine ⟨fun h => ?_, semiWordScan_of_trailing q⟩
  unfold is_safe_query
  split_ifs <;> simp_all

/-- Claim C1 witness: the amended theorem applied at a concrete stacked
statement. -/
theorem c1_witness : semiWordScan c1ex = true ∧ is_safe_query c1ex = false :=
  ⟨by decide, (c1_semicolon_amended c1ex).1 (by decide)⟩

def c2bad : List Char := "SELECT a --\nFROM t".toList
def c2ex : List Char := "SELECT a FROM t --".toList

/-- Claim C2, counterexample: the comment regex has no MULTILINE flag, so a
line-comment marker at the end of a non-final line (here before the newline)
is not detected and the query is accepted, contradicting the claim that a
marker at the end of any line is rejected. -/
theorem c2_counterexample : specDashEol c2bad = true ∧ is_safe_query c2bad = true := by
  exact ⟨by decide, by decide⟩

/-- Claim C2 as amended: for every input containing a line-comment marker
followed by nothing but whitespace up to the end of the whole string, or a
block-comment delimiter anywhere, is_safe_query returns false. -/
theorem c2_comment_amended (q : List Char) :
    (dashTrailScan q = true ∨ hasSubstr slashStarW q = true ∨ hasSubstr starSlashW q = true) →
    is_safe_query q = false := by
  intro h
  have hc : hasCommentMarks q = true := by
    unfold hasCommentMarks
    rcases h with h | h | h <;> simp [h]
  unfold is_safe_query
  split_ifs <;> simp_all

/-- Claim C2 witness: the amended theorem applied at a concrete trailing
line comment. -/
theorem c2_witness : dashTrailScan c2ex = true ∧ is_safe_query c2ex = false :=
  ⟨by decide, c2_comment_amended c2ex (Or.inl (by decide))⟩

def c5ex : List Char := "DROP TABLE t".toList

/-- Claim C5: every input that does not start (after leading whitespace) with
the keyword SELECT is rejected by is_safe_query, and on every input the
function totally returns one of the two booleans (the embedding is a total
function, mirroring that the Python code raises no exception). -/
theorem c5_select_guard (q : List Char) :
    (startsSelect q = false → is_safe_query q = false) ∧
    (is_safe_query q = true ∨ is_safe_query q = false) := by
  constructor
  · intro h
    unfold is_safe_query
    rw [if_pos h]
  · cases hb : is_safe_query q
    · exact Or.inr rfl
    · exact Or.inl rfl

/-- Claim C5 witness: the guard applied at a concrete non-SELECT input. -/
theorem c5_witness : startsSelect c5ex = false ∧ is_safe_query c5ex = false :=
  ⟨by decide, (c5_select_guard c5ex).1 (by decide)⟩

def c6ex : List Char := "SELECT drop FROM t".toList

/-- Claim C6: every string that begins with SELECT but matches one of the
prohibited keyword patterns anywhere (word-boundary, case-insensitive,
including inside string literals or aliases, which the scan cannot
distinguish) is rejected by is_safe_query. -/
theorem c6_prohibited (q : List Char) (hs : startsSelect q = true)
    (hp : anyProhibited q = true) : is_safe_query q = false := by
  unfold is_safe_query
  split_ifs <;> simp_all

/-- Claim C6 witness: the theorem applied at a SELECT query using a column
name that is a prohibited keyword as a whole word. -/
theorem c6_witness : anyProhibited c6ex = true ∧ is_safe_query c6ex = false :=
  ⟨by decide, c6_prohibited c6ex (by decide) (by decide)⟩

def c4bad : List Char := "SELECT a FROM t LIMIT 5".toList
def c4ex : List Char := "SELECT a FROM t".toList

/-- Claim C4, counterexample: the injection step of query.py's execute_select
only skips the rewrite when the substring "top" occurs in the lowercased
query; a query already bounded by a LIMIT clause (an equivalent limiting
clause per the claim) is nevertheless rewritten, contradicting the claim
that it is left unchanged. -/
theorem c4_counterexample :
    specHasLimiting c4bad = true ∧ inject_top_clause c4bad 100 ≠ c4bad := by
  exact ⟨by decide, by decide⟩

/-- Claim C4 as amended: the rewrite is skipped exactly when the lowercased
query already contains the substring "top" (equivalent LIMIT or FETCH FIRST
clauses do not suppress it); otherwise, for a positive limit and a query
matching the leading SELECT-plus-whitespace pattern, a TOP-limit clause is
inserted at the end of that match; and the injection step is idempotent. -/
theorem c4_row_limit_amended (q : List Char) (limit : Nat) :
    (topSubstr q = true → inject_top_clause q limit = q) ∧
    (∀ n, 0 < limit → topSubstr q = false → selectHeadLen q = some n →
      inject_top_clause q limit = q.take n ++ topClause limit ++ q.drop n) ∧
    inject_top_clause (inject_top_clause q limit) limit = inject_top_clause q limit := by
  exact ⟨inject_skip q limit, fun n h1 h2 h3 => inject_rewrite q limit n h1 h2 h3,
    inject_idem q limit⟩

/-- Claim C4 witness: the amended theorem applied at a concrete unlimited
SELECT query with limit 5. -/
theorem c4_witness :
    inject_top_clause c4ex 5 = c4ex.take 7 ++ topClause 5 ++ c4ex.drop 7 ∧
    inject_top_clause (inject_top_clause c4ex 5) 5 = inject_top_clause c4ex 5 :=
  ⟨(c4_row_limit_amended c4ex 5).2.1 7 (by decide) (by decide) (by decide),
   (c4_row_limit_amended c4ex 5).2.2⟩

def c3recOld : UsageRec := { queryCount := 1, firstSeen := 10, lastSeen := 100, attrs := [] }
def c3recNew : UsageRec := { queryCount := 2, firstSeen := 20, lastSeen := 50, attrs := [] }

def c3old : Digest :=
  { lastUpdated := 100
    usageCount := 5
    tables := fun k => if k = "dbo.T1" then some c3recOld else none
    fields := fun _ => none
    joins := fun _ => none }

def c3new : Digest :=
  { lastUpdated := 50
    usageCount := 7
    tables := fun k => if k = "dbo.T1" then some c3recNew else none
    fields := fun _ => none
    joins := fun _ => none }

/-- Claim C3, counterexample: _merge_digests copies last_seen from the new
digest's record without comparing; merging records with last_seen 100 (old)
and 50 (new) yields 50, not the maximum 100, contradicting the claim that
the merged last_seen is the latest of the two. -/
theorem c3_counterexample :
    ((_merge_digests c3old c3new).tables "dbo.T1" =
      some { queryCount := 3, firstSeen := 10, lastSeen := 50, attrs := [] }) ∧
    (50 : Int) ≠ max (100 : Int) 50 := by
  exact ⟨by decide, by decide⟩

/-- Claim C3 as amended: _merge_digests sums usage_count; for keys present on
both sides of tables, fields or joins the merged record sums query_count and
keeps the earliest first_seen, while last_seen (like the other descriptive
attributes) is taken from the new digest's record, not the maximum of the
two; keys present on only one side pass through unchanged. -/
theorem c3_merge_amended (old new : Digest) :
    ((_merge_digests old new).usageCount = old.usageCount + new.usageCount) ∧
    (∀ o n : UsageRec,
      (mergeRecords o n).queryCount = o.queryCount + n.queryCount ∧
      (mergeRecords o n).firstSeen = min o.firstSeen n.firstSeen ∧
      (mergeRecords o n).lastSeen = n.lastSeen) ∧
    (∀ k o n, old.tables k = some o → new.tables k = some n →
      (_merge_digests old new).tables k = some (mergeRecords o n)) ∧
    (∀ k o n, old.fields k = some o → new.fields k = some n →
      (_merge_digests old new).fields k = some (mergeRecords o n)) ∧
    (∀ k o n, old.joins k = some o → new.joins k = some n →
      (_merge_digests old new).joins k = some (mergeRecords o n)) ∧
    (∀ k r, old.tables k = some r → new.tables k = none →
      (_merge_digests old new).tables k = some r) ∧
    (∀ k r, old.tables k = none → new.tables k = some r →
      (_merge_digests old new).tables k = some r) ∧
    (∀ k r, old.fields k = some r → new.fields k = none →
      (_merge_digests old new).fields k = some r) ∧
    (∀ k r, old.fields k = none → new.fields k = some r →
      (_merge_digests old new).fields k = some r) ∧
    (∀ k r, old.joins k = some r → new.joins k = none →
      (_merge_digests old new).joins k = some r) ∧
    (∀ k r, old.joins k = none → new.joins k = some r →
      (_merge_digests old new).joins k = some r) := by
  refine ⟨rfl, ?_, ?_, ?_, ?_, ?_, ?_, ?_, ?_, ?_, ?_⟩
  · intro o n
    refine ⟨Nat.add_comm n.queryCount o.queryCount, ?_, rfl⟩
    simp only [mergeRecords, min_def]
    split_ifs <;> omega
  all_goals
    intros
    simp_all only [_merge_digests, mergeMap]

/-- Claim C3 witness: the amended merge facts applied at a concrete pair of
digests sharing the table key. -/
theorem c3_witness :
    (_merge_digests c3old c3new).tables "dbo.T1" = some (mergeRecords c3recOld c3recNew) ∧
    (mergeRecords c3recOld c3recNew).queryCount = c3recOld.queryCount + c3recNew.queryCount ∧
    (mergeRecords c3recOld c3recNew).firstSeen = min c3recOld.firstSeen c3recNew.firstSeen ∧
    (mergeRecords c3recOld c3recNew).lastSeen = c3recNew.lastSeen :=
  ⟨(c3_merge_amended c3old c3new).2.2.1 "dbo.T1" c3recOld c3recNew (by decide) (by decide),
   ((c3_merge_amended c3old c3new).2.1 c3recOld c3recNew).1,
   ((c3_merge_amended c3old c3new).2.1 c3recOld c3recNew).2.1,
   ((c3_merge_amended c3old c3new).2.1 c3recOld c3recNew).2.2⟩

/-- Claim C7: update_usage_digest with the force flag unset and strictly less
than 86400 seconds elapsed since the persisted last_updated returns the
skipped status carrying the current last_updated and leaves the persisted
digest unchanged; with the force flag set, or with more than 86400 seconds
elapsed, the refresh proceeds (reports success). -/
theorem c7_refresh_skip (cur newD : Digest) (now : Int) (force : Bool) :
    (force = false → now - cur.lastUpdated < 86400 →
      update_usage_digest cur newD now force = (UpdateStatus.skipped cur.lastUpdated, cur)) ∧
    (force = true ∨ 86400 < now - cur.lastUpdated →
      (update_usage_digest cur newD now force).1 = UpdateStatus.success now) := by
  constructor
  · intro h1 h2
    unfold update_usage_digest
    rw [if_pos ⟨h1, h2⟩]
  · intro h
    have hn : ¬(force = false ∧ now - cur.lastUpdated < 86400) := by
      rcases h with h | h
      · rintro ⟨h1, _⟩
        rw [h] at h1
        exact Bool.noConfusion h1
      · rintro ⟨_, h2⟩
        omega
    unfold update_usage_digest
    rw [if_neg hn]

def c7cur : Digest := emptyDigest 0

/-- Claim C7 witness: the skip and the forced-elapsed branches at concrete
times. -/
theorem c7_witness :
    update_usage_digest c7cur c7cur 100 false = (UpdateStatus.skipped 0, c7cur) ∧
    (update_usage_digest c7cur c7cur 200000 false).1 = UpdateStatus.success 200000 :=
  ⟨(c7_refresh_skip c7cur c7cur 100 false).1 rfl (by decide),
   (c7_refresh_skip c7cur c7cur 200000 false).2 (Or.inr (by decide))⟩

/-- Claim C9: a read failure of an existing digest document does not
propagate (the embedding of _load_usage_digest is a total function whose
corrupt-file branch returns normally); the returned digest has usage_count
zero and empty tables, fields and joins maps, so callers see an empty
digest. -/
theorem c9_load_read_failure (now : Int) :
    _load_usage_digest FileState.corrupt now = (emptyDigest now, FileState.corrupt) ∧
    (_load_usage_digest FileState.corrupt now).1.usageCount = 0 ∧
    (∀ k, (_load_usage_digest FileState.corrupt now).1.tables k = none) ∧
    (∀ k, (_load_usage_digest FileState.corrupt now).1.fields k = none) ∧
    (∀ k, (_load_usage_digest FileState.corrupt now).1.joins k = none) :=
  ⟨rfl, rfl, fun _ => rfl, fun _ => rfl, fun _ => rfl⟩

/-- Claim C10: when no digest file exists, the first load creates and
persists an empty digest stamped with the creation time t0 (not an epoch or
absent value); consequently a non-forced update less than 86400 seconds
later is reported as skipped even though usage_count is still zero. -/
theorem c10_first_access_skip (t0 t : Int) (newD : Digest) (h : t - t0 < 86400) :
    ((_load_usage_digest FileState.missing t0).1.lastUpdated = t0) ∧
    ((_load_usage_digest FileState.missing t0).1.usageCount = 0) ∧
    ((_load_usage_digest FileState.missing t0).2 = FileState.valid (emptyDigest t0)) ∧
    (update_usage_digest (_load_usage_digest FileState.missing t0).1 newD t false =
      (UpdateStatus.skipped t0, (_load_usage_digest FileState.missing t0).1)) := by
  refine ⟨rfl, rfl, rfl, ?_⟩
  unfold update_usage_digest
  rw [if_pos ⟨rfl, h⟩]
  rfl

/-- Claim C10 witness: first access at time 1000 and a non-forced update at
time 2000. -/
theorem c10_witness :
    ((_load_usage_digest FileState.missing 1000).1.lastUpdated = 1000) ∧
    (update_usage_digest (_load_usage_digest FileState.missing 1000).1 (emptyDigest 1000) 2000 false =
      (UpdateStatus.skipped 1000, (_load_usage_digest FileState.missing 1000).1)) :=
  ⟨(c10_first_access_skip 1000 2000 (emptyDigest 1000) (by decide)).1,
   (c10_first_access_skip 1000 2000 (emptyDigest 1000) (by decide)).2.2.2⟩

def c8query : List Char :=
  "SELECT a FROM dbo.Customers c JOIN dbo.Orders o ON c.id = o.cust_id".toList

def c8condLower : List Char := "c.id = o.cust_id".toList

/-- Claim C8, counterexample: join extraction uppercases each line before
parsing, so on the claimed input it produces the single tuple
(DBO.CUSTOMERS, DBO.ORDERS, C.ID = O.CUST_ID); no produced tuple has a
condition containing the literal lowercase text "c.id = o.cust_id", so the
claim's join half fails at its own concrete input. -/
theorem c8_counterexample :
    (_extract_joins_from_query c8query =
      [("DBO.CUSTOMERS".toList, "DBO.ORDERS".toList, some ("C.ID = O.CUST_ID".toList))]) ∧
    ((_extract_joins_from_query c8query).all
      (fun j => !(hasSubstr c8condLower (j.2.2.getD []))) = true) := by
  exact ⟨by decide, by decide⟩

/-- Claim C8 as amended: on the claimed input, table extraction yields
exactly the set of the two original-case references dbo.Customers and
dbo.Orders, and join extraction yields exactly one tuple linking the
uppercased forms DBO.CUSTOMERS and DBO.ORDERS whose condition text is
C.ID = O.CUST_ID — that is, it contains "c.id = o.cust_id" only up to
case (the uppercased needle occurs in it). -/
theorem c8_extraction_amended :
    (_extract_tables_from_query c8query =
      ["dbo.Customers".toList, "dbo.Orders".toList]) ∧
    (_extract_joins_from_query c8query =
      [("DBO.CUSTOMERS".toList, "DBO.ORDERS".toList, some ("C.ID = O.CUST_ID".toList))]) ∧
    (hasSubstr (upperL c8condLower) ("C.ID = O.CUST_ID".toList) = true) := by
  exact ⟨by decide, by decide, by decide⟩
